import Mathlib

/-!
Verification of the browser client of the videocoach-openpose repository.

The TypeScript sources are shallowly embedded in Lean: pure rendering and
dispatch logic become Lean functions over explicit state records, numeric
values are rationals, timers are explicit fields holding their delays, and
the browser environment (presence of speechSynthesis, of a speech
recognition engine) is an explicit parameter.  Each definition mirrors one
function of the source; field and function names follow the source where
Lean allows it.
-/

namespace VideoCoach

/-! ## Keypoints and the skeleton renderer (MeetingPage.tsx, drawSkeleton) -/

/-- A detected body-joint location, from `types.ts` (`KeyPoint`). -/
structure KeyPoint where
  x : ℚ
  y : ℚ
  confidence : ℚ
  deriving DecidableEq, Repr

/-- Fixed skeleton topology from `config.ts` (`POSE_PAIRS`). -/
def POSE_PAIRS : List (ℕ × ℕ) :=
  [(0, 1), (1, 2), (2, 3), (3, 4),
   (1, 5), (5, 6), (6, 7),
   (1, 8), (8, 9), (9, 10),
   (1, 11), (11, 12), (12, 13),
   (0, 14), (0, 15), (14, 16), (15, 17)]

/-- The three confidence colour bands used by `drawSkeleton`:
red above 0.7, yellow above 0.5, orange otherwise. -/
inductive ConfColor where
  | high
  | medium
  | low
  deriving DecidableEq, Repr

/-- Colour grading of a keypoint by confidence (`drawSkeleton`, the
`if (confidence > 0.7) ... else if (confidence > 0.5) ... else ...` chain). -/
def gradeColor (c : ℚ) : ConfColor :=
  if (0.7 : ℚ) < c then ConfColor.high
  else if (0.5 : ℚ) < c then ConfColor.medium
  else ConfColor.low

/-- One mark placed on the overlay canvas: a stroked line segment between
two scaled points, or a filled circle at a scaled point with its colour. -/
inductive DrawCall where
  | line (x1 y1 x2 y2 : ℚ)
  | circle (x y : ℚ) (color : ConfColor)
  deriving DecidableEq, Repr

def DrawCall.isLine : DrawCall → Bool
  | .line _ _ _ _ => true
  | .circle _ _ _ => false

def DrawCall.isCircle : DrawCall → Bool
  | .line _ _ _ _ => false
  | .circle _ _ _ => true

/-- Indexing `keypoints[i]` in JavaScript: out-of-range access yields
`undefined`, modelled as `none`. -/
def kpAt (kps : List (Option KeyPoint)) (i : ℕ) : Option KeyPoint :=
  kps.getD i none

/-- Result of one `drawSkeleton` call: whether `clearRect` ran, and the
marks drawn (lines first, then circles, in source order). -/
structure DrawResult where
  cleared : Bool
  calls : List DrawCall
  deriving DecidableEq, Repr

/-- `drawSkeleton` from `MeetingPage.tsx`: early return on an empty
keypoint list; otherwise clear the canvas, stroke one line per pose pair
whose two endpoints exist with confidence above 0.2, then fill one circle
per keypoint with confidence above 0.2, colour-graded.  `cw`, `ch` are the
overlay canvas dimensions; keypoints live in 640x480 space. -/
def drawSkeleton (cw ch : ℚ) (kps : List (Option KeyPoint)) : DrawResult :=
  if kps.isEmpty then ⟨false, []⟩
  else
    let scaleX := cw / 640
    let scaleY := ch / 480
    let lineCalls := POSE_PAIRS.foldr (fun pr acc =>
      match kpAt kps pr.1, kpAt kps pr.2 with
      | some ptA, some ptB =>
        if (0.2 : ℚ) < ptA.confidence ∧ (0.2 : ℚ) < ptB.confidence then
          DrawCall.line (ptA.x * scaleX) (ptA.y * scaleY)
            (ptB.x * scaleX) (ptB.y * scaleY) :: acc
        else acc
      | _, _ => acc) []
    let circleCalls := kps.foldr (fun o acc =>
      match o with
      | some pt =>
        if (0.2 : ℚ) < pt.confidence then
          DrawCall.circle (pt.x * scaleX) (pt.y * scaleY)
            (gradeColor pt.confidence) :: acc
        else acc
      | none => acc) []
    ⟨true, lineCalls ++ circleCalls⟩

/-- Specification-side visibility test of one skeleton edge: both
endpoints exist and both have confidence strictly above 0.2. -/
def visiblePair (kps : List (Option KeyPoint)) (pr : ℕ × ℕ) : Bool :=
  match kpAt kps pr.1, kpAt kps pr.2 with
  | some ptA, some ptB =>
    decide ((0.2 : ℚ) < ptA.confidence ∧ (0.2 : ℚ) < ptB.confidence)
  | _, _ => false

/-- Specification-side segment of a visible edge, scaled to the canvas. -/
def scaledSegment (cw ch : ℚ) (kps : List (Option KeyPoint)) (pr : ℕ × ℕ) :
    DrawCall :=
  let ptA := (kpAt kps pr.1).getD ⟨0, 0, 0⟩
  let ptB := (kpAt kps pr.2).getD ⟨0, 0, 0⟩
  DrawCall.line (ptA.x * (cw / 640)) (ptA.y * (ch / 480))
    (ptB.x * (cw / 640)) (ptB.y * (ch / 480))

/-- Specification-side list of circles: one per keypoint with confidence
above 0.2, in list order, colour graded. -/
def specCircles (cw ch : ℚ) (kps : List (Option KeyPoint)) : List DrawCall :=
  (kps.filterMap (fun o => o.bind (fun pt =>
    if (0.2 : ℚ) < pt.confidence then some pt else none))).map
    (fun pt => DrawCall.circle (pt.x * (cw / 640)) (pt.y * (ch / 480))
      (gradeColor pt.confidence))

/-! ## Client state of the meeting page (MeetingPage.tsx) -/

/-- UI-derived aggregate of the latest analysis (`types.ts`, `Stats`). -/
structure Stats where
  frameCount : ℕ
  balance : ℚ
  energy : String
  emotion : String
  emotionConfidence : ℚ
  posture : String
  postureAngle : ℚ
  deriving DecidableEq, Repr

/-- Initial stats, from the `useState` initialiser. -/
def initialStats : Stats :=
  ⟨0, 0, "Unknown", "Unknown", 0, "Unknown", 0⟩

/-- JavaScript `a || d` for an optional number: `undefined` and `0` are
falsy and yield the default. -/
def jsOrQ (x : Option ℚ) (d : ℚ) : ℚ :=
  match x with
  | some v => if v = 0 then d else v
  | none => d

/-- JavaScript `a || d` for an optional natural number. -/
def jsOrNat (x : Option ℕ) (d : ℕ) : ℕ :=
  match x with
  | some v => if v = 0 then d else v
  | none => d

/-- JavaScript `a || d` for an optional string: `undefined` and the empty
string are falsy and yield the default. -/
def jsOrStr (x : Option String) (d : String) : String :=
  match x with
  | some v => if v = "" then d else v
  | none => d

/-- `data.balance` as read by the dispatcher (`balance?.balance_score`). -/
structure BalanceData where
  balance_score : Option ℚ
  deriving DecidableEq, Repr

/-- `data.movement` as read by the dispatcher (`movement?.energy`). -/
structure MovementData where
  energy : Option String
  deriving DecidableEq, Repr

/-- `data.emotion` as read by the dispatcher. -/
structure EmotionData where
  emotion : Option String
  confidence : Option ℚ
  deriving DecidableEq, Repr

/-- `data.posture` as read by the dispatcher. -/
structure PostureData where
  status : Option String
  angle : Option ℚ
  deriving DecidableEq, Repr

/-- The fields of an `analysis` payload the meeting page reads.  Every
field is optional because the dispatcher guards each access with optional
chaining (`data.balance?.balance_score`, etc.). -/
structure AnalysisData where
  frame_num : Option ℕ
  balance : Option BalanceData
  movement : Option MovementData
  emotion : Option EmotionData
  posture : Option PostureData
  keypoints : Option (List (Option KeyPoint))
  deriving DecidableEq, Repr

/-- The `setStats` update of the `analysis` branch: each field is the
payload value with a `||` fallback; `frame_num` falls back to the previous
frame count, everything else to a constant default. -/
def computeStats (data : AnalysisData) (prev : Stats) : Stats :=
  { frameCount := jsOrNat data.frame_num prev.frameCount
    balance := jsOrQ (data.balance.bind (fun b => b.balance_score)) 0
    energy := jsOrStr (data.movement.bind (fun m => m.energy)) "Unknown"
    emotion := jsOrStr (data.emotion.bind (fun e => e.emotion)) "Unknown"
    emotionConfidence := jsOrQ (data.emotion.bind (fun e => e.confidence)) 0
    posture := jsOrStr (data.posture.bind (fun p => p.status)) "Unknown"
    postureAngle := jsOrQ (data.posture.bind (fun p => p.angle)) 0 }

/-- A queued `SpeechSynthesisUtterance`. -/
structure Utterance where
  text : String
  rate : ℚ
  pitch : ℚ
  volume : ℚ
  deriving DecidableEq, Repr

/-- One displayed coaching feedback entry (`types.ts`, `FeedbackItem`). -/
structure FeedbackItem where
  time : String
  text : String
  reason : Option String
  deriving DecidableEq, Repr

/-- Connection status of the page (`types.ts`, `ConnectionStatus`). -/
inductive ConnStatus where
  | disconnected
  | connecting
  | connected
  | error
  deriving DecidableEq, Repr

/-- One media-stream track; `stop()` turns `live` off. -/
structure Track where
  live : Bool
  deriving DecidableEq, Repr

/-- WebSocket ready states. -/
inductive WsState where
  | connecting
  | opened
  | closing
  | closed
  deriving DecidableEq, Repr

/-- The client-held WebSocket object. -/
structure Socket where
  state : WsState
  deriving DecidableEq, Repr

/-- Messages the client pushes over the socket. -/
inductive OutMsg where
  | frameMsg
  | endMsg
  deriving DecidableEq, Repr

/-- Browser environment capabilities the page probes at run time. -/
structure Env where
  hasSpeechSynthesis : Bool
  deriving DecidableEq, Repr

/-- The meeting page's state: React state hooks, refs, the queued speech
utterances, the overlay canvas content, and observer fields (`sentLog` for
messages pushed over the socket, `closeCalls` for `close()` invocations,
`detachedTracks` for tracks of streams that were released). -/
structure ClientState where
  isStreaming : Bool
  connectionStatus : ConnStatus
  stats : Stats
  recentFeedback : List FeedbackItem
  coordinateLogs : List String
  lastAnalysis : Option AnalysisData
  geminiResponse : String
  error : Option String
  frameInterval : Option ℕ
  reconnectTimeout : Option ℕ
  stream : Option (List Track)
  detachedTracks : List Track
  ws : Option Socket
  sentLog : List OutMsg
  closeCalls : ℕ
  videoSrc : Bool
  speech : List Utterance
  overlayDraws : List DrawCall
  deriving DecidableEq, Repr

/-! ## Speech synthesis helper (hardened MeetingPage variant, `speak`) -/

/-- `window.speechSynthesis.cancel()`: drops every queued utterance. -/
def speechCancel (_ : List Utterance) : List Utterance := []

/-- `window.speechSynthesis.speak(u)`: appends the utterance. -/
def speechEnqueue (q : List Utterance) (u : Utterance) : List Utterance :=
  q ++ [u]

/-- The hardened meeting page's `speak` helper: guarded by the presence of
`speechSynthesis`, it first cancels any ongoing speech, then queues a new
utterance with the given rate, pitch 1.0 and volume 0.9. -/
def speak (env : Env) (q : List Utterance) (text : String) (rate : ℚ) :
    List Utterance :=
  if env.hasSpeechSynthesis then
    speechEnqueue (speechCancel q) ⟨text, rate, 1, 0.9⟩
  else q

/-! ## Number formatting (`toFixed`) -/

/-- JavaScript `x.toFixed(0)` as an integer: the nearest integer, ties
towards the larger one. -/
def toFixed0 (q : ℚ) : ℤ := Int.floor (q + 1 / 2)

/-- JavaScript `x.toFixed(1)` as a string. -/
def toFixed1 (q : ℚ) : String :=
  let n : ℤ := Int.floor (q * 10 + 1 / 2)
  let sign := if n < 0 then "-" else ""
  let m := n.natAbs
  sign ++ toString (m / 10) ++ "." ++ toString (m % 10)

/-- The balance read-out of the meeting page
(`stats.balance.toFixed(0)` followed by `/100`). -/
def balanceDisplay (st : Stats) : String :=
  toString (toFixed0 st.balance) ++ "/100"

/-! ## Inbound message dispatch (hardened MeetingPage, `ws.onmessage`) -/

/-- `response.gemini` payload. -/
structure GeminiPayload where
  triggered : Bool
  feedback : String
  deriving DecidableEq, Repr

/-- `response.coaching` payload. -/
structure CoachingPayload where
  triggered : Bool
  reason : Option String
  feedback : String
  deriving DecidableEq, Repr

/-- Outcome of `JSON.parse` plus the `type` discriminator: `invalid` is a
string that fails to parse (the `catch` branch), `unknown` parses but has
no recognised `type`. -/
inductive WireMsg where
  | invalid
  | unknown
  | welcome (message : Option String)
  | pong
  | analysis (data : Option AnalysisData) (gemini : Option GeminiPayload)
      (coaching : Option CoachingPayload)
  | errorMsg (message : String)
  deriving DecidableEq, Repr

/-- The 18 keypoint names used to format coordinate log entries. -/
def pointNames : List String :=
  ["Nose", "Neck", "RShoulder", "RElbow", "RWrist", "LShoulder", "LElbow",
   "LWrist", "RHip", "RKnee", "RAnkle", "LHip", "LKnee", "LAnkle", "REye",
   "LEye", "REar", "LEar"]

/-- The `validKeypoints` strings of the coordinate log: one formatted
entry per keypoint with confidence above 0.2. -/
def validKeypointStrings (kps : List (Option KeyPoint)) : List String :=
  kps.enum.filterMap (fun p =>
    match p.2 with
    | some kp =>
      if (0.2 : ℚ) < kp.confidence then
        some (pointNames.getD p.1 "undefined" ++ ": (" ++ toFixed1 kp.x ++
          ", " ++ toFixed1 kp.y ++ ") [" ++
          toString (toFixed0 (kp.confidence * 100)) ++ "%]")
      else none
    | none => none)

/-- The full coordinate log line for one frame. -/
def logEntryFor (ts : String) (data : AnalysisData)
    (kps : List (Option KeyPoint)) : String :=
  "[" ++ ts ++ "] Frame " ++
    (match data.frame_num with
     | some n => toString n
     | none => "undefined") ++
    " | " ++ String.intercalate " | " (validKeypointStrings kps)

/-- Stage 1 of the `analysis` branch: `setLastAnalysis` and `setStats`. -/
def statsStage (data : AnalysisData) (s : ClientState) : ClientState :=
  { s with lastAnalysis := some data, stats := computeStats data s.stats }

/-- Stage 2: build the coordinate log entry when the payload has a
nonempty keypoint list with at least one valid keypoint, and push it onto
the rolling 30-entry log (`[logEntry, ...prev].slice(0, 30)`). -/
def coordinateLogStage (ts : String) (data : AnalysisData)
    (s : ClientState) : ClientState :=
  match data.keypoints with
  | some kps =>
    if 0 < kps.length then
      if 0 < (validKeypointStrings kps).length then
        { s with coordinateLogs :=
            (logEntryFor ts data kps :: s.coordinateLogs).take 30 }
      else s
    else s
  | none => s

/-- Stage 3: redraw the skeleton overlay when keypoints are present.  The
canvas keeps its old content when `drawSkeleton` early-returns without
clearing. -/
def skeletonStage (data : AnalysisData) (s : ClientState) : ClientState :=
  match data.keypoints with
  | some kps =>
    let r := drawSkeleton 640 480 kps
    if r.cleared then { s with overlayDraws := r.calls } else s
  | none => s

/-- Stage 4: the Gemini AI feedback branch
(`response.gemini?.triggered && response.gemini.feedback`). -/
def geminiStage (env : Env) (ts : String) (gemini : Option GeminiPayload)
    (s : ClientState) : ClientState :=
  match gemini with
  | some g =>
    if g.triggered ∧ g.feedback ≠ "" then
      let s := { s with geminiResponse := g.feedback }
      let s := { s with speech := speak env s.speech g.feedback 1 }
      { s with recentFeedback :=
          (FeedbackItem.mk ts g.feedback (some "ai_analysis")
            :: s.recentFeedback).take 5 }
    else s
  | none => s

/-- Stage 5: the coaching feedback branch
(`response.coaching?.triggered && response.coaching.feedback`). -/
def coachingStage (env : Env) (ts : String)
    (coaching : Option CoachingPayload) (s : ClientState) : ClientState :=
  match coaching with
  | some c =>
    if c.triggered ∧ c.feedback ≠ "" then
      let s := { s with recentFeedback :=
          (FeedbackItem.mk ts c.feedback c.reason
            :: s.recentFeedback).take 5 }
      { s with speech := speak env s.speech c.feedback 1 }
    else s
  | none => s

/-- The hardened meeting page's `ws.onmessage` handler.  `ts` is the value
of `new Date().toLocaleTimeString()` at dispatch time.  A parse failure is
caught and logged, so `invalid` (and an unrecognised shape) leaves the
state untouched; an `analysis` message without a `data` field fails the
`response.type === 'analysis' && response.data` guard and is dropped. -/
def onMessage (env : Env) (ts : String) (s : ClientState) :
    WireMsg → ClientState
  | .invalid => s
  | .unknown => s
  | .welcome message =>
    { s with speech := (speak env s.speech
        (jsOrStr message "Connected to AI Video Coach with OpenPose") 1) }
  | .pong => s
  | .analysis data gemini coaching =>
    match data with
    | some d =>
      coachingStage env ts coaching
        (geminiStage env ts gemini
          (skeletonStage d
            (coordinateLogStage ts d
              (statsStage d s))))
    | none => s
  | .errorMsg message => { s with error := some message }

/-- A run of the dispatcher over a sequence of inbound messages, each with
its dispatch timestamp. -/
def runClient (env : Env) (s : ClientState)
    (msgs : List (String × WireMsg)) : ClientState :=
  msgs.foldl (fun st m => onMessage env m.1 st m.2) s

/-! ## Stopping a session (MeetingPage.tsx, `stopStreaming`) -/

/-- `track.stop()`. -/
def stopTrack (_ : Track) : Track := ⟨false⟩

/-- `stopStreaming` of the meeting page, step for step: clear the frame
capture interval, clear the reconnection timeout, stop every media track
and null the stream reference (the stopped tracks move to
`detachedTracks`), send `{ type: 'end' }` when the socket is open then
close and null the socket, null the video element's `srcObject`, cancel
speech synthesis when the environment has it, and finally reset
`isStreaming` and the connection status. -/
def stopStreaming (env : Env) (s : ClientState) : ClientState :=
  let s := match s.frameInterval with
    | some _ => { s with frameInterval := none }
    | none => s
  let s := match s.reconnectTimeout with
    | some _ => { s with reconnectTimeout := none }
    | none => s
  let s := match s.stream with
    | some tracks =>
      { s with detachedTracks := tracks.map stopTrack ++ s.detachedTracks,
               stream := none }
    | none => s
  let s := match s.ws with
    | some sock =>
      let s := if sock.state = WsState.opened then
          { s with sentLog := s.sentLog ++ [OutMsg.endMsg] }
        else s
      { s with closeCalls := s.closeCalls + 1, ws := none }
    | none => s
  let s := { s with videoSrc := false }
  let s := if env.hasSpeechSynthesis then { s with speech := speechCancel s.speech }
    else s
  { s with isStreaming := false, connectionStatus := ConnStatus.disconnected }

/-! ## WebSocket lifecycle (MeetingPage.tsx, `connectWebSocket`) -/

/-- A newly constructed WebSocket starts in the connecting state. -/
def freshSocket : Socket := ⟨WsState.connecting⟩

/-- `connectWebSocket`: a no-op when the current socket is already open,
otherwise sets the status to connecting and installs a fresh socket. -/
def connectWebSocket (s : ClientState) : ClientState :=
  match s.ws with
  | some sock =>
    if sock.state = WsState.opened then s
    else { s with connectionStatus := ConnStatus.connecting, ws := some freshSocket }
  | none => { s with connectionStatus := ConnStatus.connecting, ws := some freshSocket }

/-- The `ws.onclose` handler: the status drops to disconnected, and a
3000 ms reconnect timer is scheduled exactly when streaming is active and
the close was unclean. -/
def onCloseEvent (wasClean : Bool) (s : ClientState) : ClientState :=
  let s := { s with connectionStatus := ConnStatus.disconnected }
  if s.isStreaming && !wasClean then
    { s with reconnectTimeout := some 3000 }
  else s

/-! ## Speech-to-text adapter (`useSpeechToText`, `startRecognition`) -/

/-- Environment facts the adapter probes: whether
`window.SpeechRecognition || window.webkitSpeechRecognition` exists, and
whether constructing/starting the engine succeeds or throws. -/
structure RecogEnv where
  engineAvailable : Bool
  startSucceeds : Bool
  deriving DecidableEq, Repr

/-- Adapter refs: `recognitionRef` and `isListeningRef`. -/
structure RecogState where
  recognitionActive : Bool
  listening : Bool
  deriving DecidableEq, Repr

/-- Result of one `startRecognition` call: the new refs, the returned
boolean, and the strings reported through the `onError` callback. -/
structure RecogResult where
  state : RecogState
  returned : Bool
  errors : List String
  deriving DecidableEq, Repr

/-- `startRecognition`: when no engine exists, report the unsupported
error through the callback and return `false`; otherwise construct and
start the engine inside a `try`, storing the instance and returning
`true`, or catch the thrown error, report it, and return `false`. -/
def startRecognition (env : RecogEnv) (s : RecogState) : RecogResult :=
  if !env.engineAvailable then
    ⟨s, false, ["Speech recognition not supported in this browser"]⟩
  else if env.startSucceeds then
    ⟨{ s with recognitionActive := true }, true, []⟩
  else
    ⟨s, false, ["start failed"]⟩

/-! ## Voice activity detection (`useVoiceDetection`, `analyzeAudio`)

The analysis loop is modelled as a step function over timed events: a
`tick` is one `analyzeAudio` animation frame carrying the raw frequency
bins, and a `fire` is the expiry of the armed silence timeout.  The step
function only honours a `fire` when a timer is armed and the event sits
exactly `silenceDuration` after the arming tick, which is how a browser
timeout behaves: a cleared timer never fires, a pending one fires at its
due time. -/

/-- Detector configuration: `speechThreshold` (default 0.02) and
`silenceDuration` in milliseconds (default 2500). -/
structure VadConfig where
  speechThreshold : ℚ
  silenceDuration : ℕ
  deriving DecidableEq, Repr

/-- The refs and state of the detector: `isSpeaking`, the last computed
energy, the armed silence timer (by its arming time), and the recorded
speech start time. -/
structure VadState where
  isSpeaking : Bool
  energy : ℚ
  silenceTimer : Option ℕ
  speechStartTime : Option ℕ
  deriving DecidableEq, Repr

def initialVadState : VadState := ⟨false, 0, none, none⟩

/-- Timed events driving the loop.  `tick now bins` is one animation
frame with the byte frequency data; `fire now` is the silence timeout
callback running at time `now`. -/
inductive VadEvent where
  | tick (now : ℕ) (bins : List ℕ)
  | fire (now : ℕ)
  deriving DecidableEq, Repr

def eventTime : VadEvent → ℕ
  | .tick now _ => now
  | .fire now => now

/-- Callbacks the detector invokes. -/
inductive VadCallback where
  | speechStart
  | speechEnd (duration : ℕ)
  deriving DecidableEq, Repr

/-- `analyzeAudio`'s energy estimate: the average of the frequency bins,
normalised by 255. -/
def normalizedEnergy (bins : List ℕ) : ℚ :=
  ((bins.sum : ℚ) / (bins.length : ℚ)) / 255

/-- One step of the loop.  A tick updates the energy; above the threshold
it transitions to speaking (recording the start time and invoking the
speech-start callback when not already speaking) and clears any pending
silence timer; at or below the threshold it arms the silence timer when
speaking with no timer pending.  A legal fire computes the elapsed
duration from the recorded start, leaves the speaking state, and invokes
the speech-end callback. -/
def stepVad (cfg : VadConfig) (s : VadState) :
    VadEvent → VadState × List (ℕ × VadCallback)
  | .tick now bins =>
    let e := normalizedEnergy bins
    let s := { s with energy := e }
    if cfg.speechThreshold < e then
      if s.isSpeaking then
        ({ s with silenceTimer := none }, [])
      else
        ({ s with isSpeaking := true, speechStartTime := some now,
                  silenceTimer := none },
         [(now, VadCallback.speechStart)])
    else
      if s.isSpeaking && s.silenceTimer.isNone then
        ({ s with silenceTimer := some now }, [])
      else (s, [])
  | .fire now =>
    match s.silenceTimer with
    | some t0 =>
      if now = t0 + cfg.silenceDuration then
        let d := match s.speechStartTime with
          | some st => now - st
          | none => 0
        ({ s with isSpeaking := false, silenceTimer := none,
                  speechStartTime := none },
         [(now, VadCallback.speechEnd d)])
      else (s, [])
    | none => (s, [])

/-- Run of the loop over an event list, collecting invoked callbacks. -/
def runVad (cfg : VadConfig) (s : VadState) :
    List VadEvent → VadState × List (ℕ × VadCallback)
  | [] => (s, [])
  | e :: es =>
    let p := stepVad cfg s e
    let q := runVad cfg p.1 es
    (q.1, p.2 ++ q.2)

/-- Wellformed traces: event times strictly increase. -/
def vadWf (es : List VadEvent) : Prop :=
  es.Pairwise (fun a b => eventTime a < eventTime b)

instance : DecidablePred vadWf := fun es => by
  unfold vadWf
  infer_instance

/-- Every tick of the trace at or after time `t0` measured energy at or
below the threshold. -/
def tickSubThreshold (cfg : VadConfig) (es : List VadEvent) (t0 : ℕ) : Prop :=
  ∀ t bins, VadEvent.tick t bins ∈ es → t0 ≤ t →
    normalizedEnergy bins ≤ cfg.speechThreshold

/-- Run invariant, relative to the already-processed trace: a recorded
speech start stems from a tick of the trace, and an armed silence timer
implies the detector is speaking, has a recorded start no later than the
arm time, and every trace tick since the arm time was at or below the
threshold. -/
def vadStateInv (cfg : VadConfig) (es : List VadEvent) (s : VadState) : Prop :=
  (s.isSpeaking = true →
    ∃ st bins, s.speechStartTime = some st ∧ VadEvent.tick st bins ∈ es) ∧
  (∀ t0, s.silenceTimer = some t0 →
    s.isSpeaking = true ∧
    (∃ st, s.speechStartTime = some st ∧ st ≤ t0) ∧
    tickSubThreshold cfg es t0)

/-! ## Frame-by-frame lemmas about the dispatcher stages -/

theorem statsStage_stats (d : AnalysisData) (s : ClientState) :
    (statsStage d s).stats = computeStats d s.stats := rfl

theorem coordinateLogStage_stats (ts : String) (d : AnalysisData)
    (s : ClientState) : (coordinateLogStage ts d s).stats = s.stats := by
  unfold coordinateLogStage
  split <;> try rfl
  split <;> try rfl
  split <;> rfl

theorem skeletonStage_stats (d : AnalysisData) (s : ClientState) :
    (skeletonStage d s).stats = s.stats := by
  unfold skeletonStage
  split <;> try rfl
  dsimp only
  split <;> rfl

theorem geminiStage_stats (env : Env) (ts : String)
    (g : Option GeminiPayload) (s : ClientState) :
    (geminiStage env ts g s).stats = s.stats := by
  unfold geminiStage
  split <;> try rfl
  split <;> rfl

theorem coachingStage_stats (env : Env) (ts : String)
    (c : Option CoachingPayload) (s : ClientState) :
    (coachingStage env ts c s).stats = s.stats := by
  unfold coachingStage
  split <;> try rfl
  split <;> rfl

/-- The `analysis` branch leaves the stats exactly as `setStats` computed
them: no later stage touches them. -/
theorem onMessage_analysis_stats (env : Env) (ts : String) (s : ClientState)
    (d : AnalysisData) (g : Option GeminiPayload)
    (c : Option CoachingPayload) :
    (onMessage env ts s (WireMsg.analysis (some d) g c)).stats =
      computeStats d s.stats := by
  show (coachingStage env ts c (geminiStage env ts g (skeletonStage d
    (coordinateLogStage ts d (statsStage d s))))).stats = _
  rw [coachingStage_stats, geminiStage_stats, skeletonStage_stats,
    coordinateLogStage_stats, statsStage_stats]

/-- A concrete page state used to instantiate theorems with hypotheses. -/
def baseState : ClientState :=
  { isStreaming := true
    connectionStatus := ConnStatus.connected
    stats := initialStats
    recentFeedback := []
    coordinateLogs := []
    lastAnalysis := none
    geminiResponse := ""
    error := none
    frameInterval := some 1
    reconnectTimeout := none
    stream := some [⟨true⟩]
    detachedTracks := []
    ws := some ⟨WsState.opened⟩
    sentLog := []
    closeCalls := 0
    videoSrc := true
    speech := []
    overlayDraws := [] }

/-! ## Claims -/

/-- Claim C5: an `analysis` message replaces the stats wholesale with the
values computed from the payload; a `balance.balance_score` of 72.5 is
displayed as the string `73/100` (rounded to the nearest integer), and
`emotion`/`posture` fields absent from the payload take their `Unknown`
defaults (with confidence and angle 0), whatever the previous stats
held. -/
theorem claim5_analysis_stats (env : Env) (ts : String) (s : ClientState)
    (d : AnalysisData) (g : Option GeminiPayload)
    (c : Option CoachingPayload)
    (hb : d.balance = some ⟨some (145 / 2)⟩)
    (he : d.emotion = none) (hp : d.posture = none) :
    (onMessage env ts s (WireMsg.analysis (some d) g c)).stats =
      computeStats d s.stats ∧
    (onMessage env ts s (WireMsg.analysis (some d) g c)).stats.balance =
      145 / 2 ∧
    balanceDisplay
      (onMessage env ts s (WireMsg.analysis (some d) g c)).stats =
      "73/100" ∧
    (onMessage env ts s (WireMsg.analysis (some d) g c)).stats.emotion =
      "Unknown" ∧
    (onMessage env ts s
      (WireMsg.analysis (some d) g c)).stats.emotionConfidence = 0 ∧
    (onMessage env ts s (WireMsg.analysis (some d) g c)).stats.posture =
      "Unknown" ∧
    (onMessage env ts s (WireMsg.analysis (some d) g c)).stats.postureAngle
      = 0 := by
  have hst := onMessage_analysis_stats env ts s d g c
  have hbal : (computeStats d s.stats).balance = 145 / 2 := by
    simp only [computeStats, hb, Option.bind_some, jsOrQ]
    norm_num
  have hdisp : balanceDisplay (computeStats d s.stats) = "73/100" := by
    rw [balanceDisplay, hbal]
    have h73 : toFixed0 (145 / 2) = 73 := by
      rw [toFixed0, show (145 / 2 + 1 / 2 : ℚ) = ((73 : ℤ) : ℚ) by norm_num]
      exact Int.floor_intCast 73
    rw [h73]
    rfl
  refine ⟨hst, ?_, ?_, ?_, ?_, ?_, ?_⟩ <;> rw [hst]
  · exact hbal
  · exact hdisp
  · rw [computeStats]; rw [he]; rfl
  · rw [computeStats]; rw [he]; rfl
  · rw [computeStats]; rw [hp]; rfl
  · rw [computeStats]; rw [hp]; rfl

/-- Witness for C5 at a concrete payload and the empty previous state. -/
theorem claim5_analysis_stats_witness :
    (onMessage ⟨true⟩ "t" baseState
      (WireMsg.analysis
        (some ⟨some 4, some ⟨some (145 / 2)⟩, none, none, none, none⟩)
        none none)).stats.balance = 145 / 2 ∧
    balanceDisplay (onMessage ⟨true⟩ "t" baseState
      (WireMsg.analysis
        (some ⟨some 4, some ⟨some (145 / 2)⟩, none, none, none, none⟩)
        none none)).stats = "73/100" :=
  ⟨(claim5_analysis_stats ⟨true⟩ "t" baseState
      ⟨some 4, some ⟨some (145 / 2)⟩, none, none, none, none⟩ none none
      rfl rfl rfl).2.1,
   (claim5_analysis_stats ⟨true⟩ "t" baseState
      ⟨some 4, some ⟨some (145 / 2)⟩, none, none, none, none⟩ none none
      rfl rfl rfl).2.2.1⟩

/-- Claim C8: the dispatcher never throws, and a string that fails to
parse, a payload of unrecognised shape, or an `analysis` message lacking a
`data` field is dropped with the whole client state (stats, feedback,
logs, status, error banner, everything) unchanged.  The dispatcher is a
total function by construction, so no exception can escape it. -/
theorem claim8_malformed_dropped (env : Env) (ts : String)
    (s : ClientState) :
    onMessage env ts s WireMsg.invalid = s ∧
    onMessage env ts s WireMsg.unknown = s ∧
    ∀ g c, onMessage env ts s (WireMsg.analysis none g c) = s :=
  ⟨rfl, rfl, fun _ _ => rfl⟩

/-- Claim C9: an `analysis` payload whose `frame_num` is 0 or missing
leaves the displayed frame count at its previous value — the update is
`data.frame_num || stats.frameCount` and 0 is falsy in JavaScript. -/
theorem claim9_frame_num_fallback (env : Env) (ts : String)
    (s : ClientState) (d : AnalysisData) (g : Option GeminiPayload)
    (c : Option CoachingPayload)
    (h : d.frame_num = none ∨ d.frame_num = some 0) :
    (onMessage env ts s (WireMsg.analysis (some d) g c)).stats.frameCount =
      s.stats.frameCount := by
  rw [onMessage_analysis_stats, computeStats]
  rcases h with h | h <;> rw [h] <;> rfl

/-- Witness for C9: `frame_num = some 0` against a previous count of 4. -/
theorem claim9_frame_num_fallback_witness :
    (onMessage ⟨true⟩ "t"
      { baseState with stats := { initialStats with frameCount := 4 } }
      (WireMsg.analysis (some ⟨some 0, none, none, none, none, none⟩)
        none none)).stats.frameCount = 4 :=
  claim9_frame_num_fallback ⟨true⟩ "t"
    { baseState with stats := { initialStats with frameCount := 4 } }
    ⟨some 0, none, none, none, none, none⟩ none none (Or.inr rfl)

/-- Claim C6: when no speech-recognition engine exists, `startRecognition`
reports the unsupported-browser error through the callback and returns
`false` (without throwing — the embedding is a total function); when the
engine exists and starts, it returns `true`. -/
theorem claim6_start_recognition (env : RecogEnv) (s : RecogState) :
    (env.engineAvailable = false →
      (startRecognition env s).returned = false ∧
      (startRecognition env s).errors =
        ["Speech recognition not supported in this browser"] ∧
      (startRecognition env s).state = s) ∧
    (env.engineAvailable = true → env.startSucceeds = true →
      (startRecognition env s).returned = true) := by
  constructor
  · intro h
    simp [startRecognition, h]
  · intro h1 h2
    simp [startRecognition, h1, h2]

/-- Witness for C6: a browser without the engine, and one with it. -/
theorem claim6_start_recognition_witness :
    (startRecognition ⟨false, true⟩ ⟨false, false⟩).returned = false ∧
    (startRecognition ⟨true, true⟩ ⟨false, false⟩).returned = true :=
  ⟨((claim6_start_recognition ⟨false, true⟩ ⟨false, false⟩).1 rfl).1,
   (claim6_start_recognition ⟨true, true⟩ ⟨false, false⟩).2 rfl rfl⟩

/-- Claim C2: on a close event while streaming, an unclean close schedules
exactly one reconnect timer with the fixed 3000 ms delay, a clean close
schedules none (the timer slot is untouched); and `connectWebSocket` is a
strict no-op — no new socket, no status change, no change at all — when a
socket is already open. -/
theorem claim2_reconnect (s : ClientState) (wasClean : Bool) :
    (s.isStreaming = true → wasClean = false →
      (onCloseEvent wasClean s).reconnectTimeout = some 3000) ∧
    (wasClean = true →
      (onCloseEvent wasClean s).reconnectTimeout = s.reconnectTimeout) ∧
    (∀ sock, s.ws = some sock → sock.state = WsState.opened →
      connectWebSocket s = s) := by
  refine ⟨?_, ?_, ?_⟩
  · intro h1 h2
    simp [onCloseEvent, h1, h2]
  · intro h
    simp [onCloseEvent, h]
  · intro sock hws hst
    simp [connectWebSocket, hws, hst]

/-- Witness for C2: `baseState` is streaming with an open socket. -/
theorem claim2_reconnect_witness :
    (onCloseEvent false baseState).reconnectTimeout = some 3000 ∧
    (onCloseEvent true baseState).reconnectTimeout =
      baseState.reconnectTimeout ∧
    connectWebSocket baseState = baseState :=
  ⟨(claim2_reconnect baseState false).1 rfl rfl,
   (claim2_reconnect baseState true).2.1 rfl,
   (claim2_reconnect baseState false).2.2 ⟨WsState.opened⟩ rfl rfl⟩

theorem coordinateLogStage_speech (ts : String) (d : AnalysisData)
    (s : ClientState) : (coordinateLogStage ts d s).speech = s.speech := by
  unfold coordinateLogStage
  split <;> try rfl
  split <;> try rfl
  split <;> rfl

theorem skeletonStage_speech (d : AnalysisData) (s : ClientState) :
    (skeletonStage d s).speech = s.speech := by
  unfold skeletonStage
  split <;> try rfl
  dsimp only
  split <;> rfl

/-- `speak` leaves at most one queued utterance when at most one was
queued (in fact exactly one when the environment speaks at all). -/
theorem speak_length_le_one (env : Env) (q : List Utterance) (text : String)
    (rate : ℚ) (h : q.length ≤ 1) : (speak env q text rate).length ≤ 1 := by
  unfold speak speechEnqueue speechCancel
  split
  · simp
  · exact h

theorem geminiStage_speech_le (env : Env) (ts : String)
    (g : Option GeminiPayload) (s : ClientState)
    (h : s.speech.length ≤ 1) :
    (geminiStage env ts g s).speech.length ≤ 1 := by
  unfold geminiStage
  split <;> try exact h
  split
  · exact speak_length_le_one env s.speech _ 1 h
  · exact h

theorem coachingStage_speech_le (env : Env) (ts : String)
    (c : Option CoachingPayload) (s : ClientState)
    (h : s.speech.length ≤ 1) :
    (coachingStage env ts c s).speech.length ≤ 1 := by
  unfold coachingStage
  split <;> try exact h
  split
  · exact speak_length_le_one env s.speech _ 1 h
  · exact h

/-- Claim C10: in the hardened meeting-page variant the `speak` helper
always cancels ongoing speech synthesis before queueing, so a call leaves
exactly the new utterance queued (rate as given, pitch 1, volume 0.9);
consequently the dispatcher — whose every speech emission goes through
`speak` — maintains at most one queued coaching utterance. -/
theorem claim10_speak_single_utterance (env : Env)
    (h : env.hasSpeechSynthesis = true) :
    (∀ q text rate, speak env q text rate = [⟨text, rate, 1, 0.9⟩]) ∧
    (∀ ts s m, s.speech.length ≤ 1 →
      (onMessage env ts s m).speech.length ≤ 1) := by
  constructor
  · intro q text rate
    simp [speak, h, speechCancel, speechEnqueue]
  · intro ts s m hs
    cases m with
    | invalid => exact hs
    | unknown => exact hs
    | welcome message =>
      show (speak env s.speech _ 1).length ≤ 1
      exact speak_length_le_one env s.speech _ 1 hs
    | pong => exact hs
    | errorMsg message => exact hs
    | analysis data gemini coaching =>
      cases data with
      | none => exact hs
      | some d =>
        show (coachingStage env ts coaching (geminiStage env ts gemini
          (skeletonStage d (coordinateLogStage ts d
            (statsStage d s))))).speech.length ≤ 1
        apply coachingStage_speech_le
        apply geminiStage_speech_le
        rw [skeletonStage_speech, coordinateLogStage_speech]
        exact hs

/-- Witness for C10: a two-utterance queue collapses to the new one. -/
theorem claim10_speak_single_utterance_witness :
    speak ⟨true⟩ [⟨"a", 1, 1, 0.9⟩, ⟨"b", 1, 1, 0.9⟩] "c" 1 =
      [⟨"c", 1, 1, 0.9⟩] :=
  (claim10_speak_single_utterance ⟨true⟩ rfl).1
    [⟨"a", 1, 1, 0.9⟩, ⟨"b", 1, 1, 0.9⟩] "c" 1

/-- Claim C1 (amended): `stopStreaming` clears the frame-capture interval
and any pending reconnect timer, stops all media tracks and nulls the
stream reference, sends `end` exactly when the socket is open and then
closes and nulls the socket, cancels speech synthesis (when the
environment has `speechSynthesis`), clears the video element's media
source, and resets the streaming flag and connection status — but it does
NOT clear the overlay canvas, which keeps its last drawing. -/
theorem claim1_stop_streaming (env : Env) (s : ClientState) :
    (stopStreaming env s).frameInterval = none ∧
    (stopStreaming env s).reconnectTimeout = none ∧
    (stopStreaming env s).stream = none ∧
    (stopStreaming env s).detachedTracks =
      (s.stream.getD []).map stopTrack ++ s.detachedTracks ∧
    (∀ t, t ∈ (stopStreaming env s).detachedTracks →
      t ∈ s.detachedTracks ∨ t.live = false) ∧
    (stopStreaming env s).ws = none ∧
    (∀ sock, s.ws = some sock → sock.state = WsState.opened →
      (stopStreaming env s).sentLog = s.sentLog ++ [OutMsg.endMsg]) ∧
    (∀ sock, s.ws = some sock → sock.state ≠ WsState.opened →
      (stopStreaming env s).sentLog = s.sentLog) ∧
    (s.ws = none → (stopStreaming env s).sentLog = s.sentLog) ∧
    (s.ws.isSome →
      (stopStreaming env s).closeCalls = s.closeCalls + 1) ∧
    (env.hasSpeechSynthesis = true → (stopStreaming env s).speech = []) ∧
    (stopStreaming env s).videoSrc = false ∧
    (stopStreaming env s).isStreaming = false ∧
    (stopStreaming env s).connectionStatus = ConnStatus.disconnected ∧
    (stopStreaming env s).overlayDraws = s.overlayDraws := by
  obtain ⟨hs⟩ := env
  obtain ⟨a1, a2, st, fb, cl, la, gr, er, fi, rt, strm, dt, ws, sl, cc,
    vs, sp, od⟩ := s
  cases hs <;> cases fi <;> cases rt <;> cases strm <;>
    rcases ws with _ | ⟨⟨wst⟩⟩ <;> try cases wst <;>
    simp [stopStreaming, stopTrack, speechCancel]
  all_goals
    try simp [stopStreaming, stopTrack, speechCancel]
  all_goals
    intro t ht
    first
    | exact Or.inl ht
    | (rcases ht with ⟨_, ht⟩ | ht
       · right
         rw [← ht]
       · exact Or.inl ht)

/-- Counterexample for C1 as stated: after `stopStreaming` the overlay
canvas still holds the previously drawn skeleton mark — the
"overlay/canvas state is reset" postcondition fails (only the video
element's source is cleared). -/
theorem claim1_stop_streaming_counterexample :
    ¬ ((stopStreaming ⟨true⟩
        { baseState with
          overlayDraws := [DrawCall.circle 0 0 ConfColor.low] }).overlayDraws
        = []) := by
  simp [stopStreaming, baseState, speechCancel]

/-- Witness for C1 at `baseState` (open socket, speech available). -/
theorem claim1_stop_streaming_witness :
    (stopStreaming ⟨true⟩ baseState).frameInterval = none ∧
    (stopStreaming ⟨true⟩ baseState).sentLog =
      baseState.sentLog ++ [OutMsg.endMsg] ∧
    (stopStreaming ⟨true⟩ baseState).speech = [] := by
  obtain ⟨h1, h2, h3, h4, h5, h6, h7, h8, h9, h10, h11, h12, h13, h14,
    h15⟩ := claim1_stop_streaming ⟨true⟩ baseState
  exact ⟨h1, h7 ⟨WsState.opened⟩ rfl rfl, h11 rfl⟩

theorem coordinateLogStage_feedback (ts : String) (d : AnalysisData)
    (s : ClientState) :
    (coordinateLogStage ts d s).recentFeedback = s.recentFeedback := by
  unfold coordinateLogStage
  split <;> try rfl
  split <;> try rfl
  split <;> rfl

theorem skeletonStage_feedback (d : AnalysisData) (s : ClientState) :
    (skeletonStage d s).recentFeedback = s.recentFeedback := by
  unfold skeletonStage
  split <;> try rfl
  dsimp only
  split <;> rfl

theorem skeletonStage_logs (d : AnalysisData) (s : ClientState) :
    (skeletonStage d s).coordinateLogs = s.coordinateLogs := by
  unfold skeletonStage
  split <;> try rfl
  dsimp only
  split <;> rfl

theorem geminiStage_logs (env : Env) (ts : String) (g : Option GeminiPayload)
    (s : ClientState) :
    (geminiStage env ts g s).coordinateLogs = s.coordinateLogs := by
  unfold geminiStage
  split <;> try rfl
  split <;> rfl

theorem coachingStage_logs (env : Env) (ts : String)
    (c : Option CoachingPayload) (s : ClientState) :
    (coachingStage env ts c s).coordinateLogs = s.coordinateLogs := by
  unfold coachingStage
  split <;> try rfl
  split <;> rfl

theorem coordinateLogStage_logs_cases (ts : String) (d : AnalysisData)
    (s : ClientState) :
    (coordinateLogStage ts d s).coordinateLogs = s.coordinateLogs ∨
    ∃ e, (coordinateLogStage ts d s).coordinateLogs =
      (e :: s.coordinateLogs).take 30 := by
  unfold coordinateLogStage
  split
  · split
    · split
      · exact Or.inr ⟨_, rfl⟩
      · exact Or.inl rfl
    · exact Or.inl rfl
  · exact Or.inl rfl

theorem geminiStage_feedback_cases (env : Env) (ts : String)
    (g : Option GeminiPayload) (s : ClientState) :
    (geminiStage env ts g s).recentFeedback = s.recentFeedback ∨
    ∃ i, (geminiStage env ts g s).recentFeedback =
      (i :: s.recentFeedback).take 5 := by
  unfold geminiStage
  split
  · split
    · exact Or.inr ⟨_, rfl⟩
    · exact Or.inl rfl
  · exact Or.inl rfl

theorem coachingStage_feedback_cases (env : Env) (ts : String)
    (c : Option CoachingPayload) (s : ClientState) :
    (coachingStage env ts c s).recentFeedback = s.recentFeedback ∨
    ∃ i, (coachingStage env ts c s).recentFeedback =
      (i :: s.recentFeedback).take 5 := by
  unfold coachingStage
  split
  · split
    · exact Or.inr ⟨_, rfl⟩
    · exact Or.inl rfl
  · exact Or.inl rfl

/-- Any dispatch leaves the feedback list untouched, pushes one item onto
it, or pushes two (Gemini then coaching), always through the
`slice(0, 5)` rolling update. -/
theorem onMessage_feedback_cases (env : Env) (ts : String) (s : ClientState)
    (m : WireMsg) :
    (onMessage env ts s m).recentFeedback = s.recentFeedback ∨
    (∃ i, (onMessage env ts s m).recentFeedback =
      (i :: s.recentFeedback).take 5) ∨
    (∃ i j, (onMessage env ts s m).recentFeedback =
      (j :: (i :: s.recentFeedback).take 5).take 5) := by
  cases m with
  | invalid => exact Or.inl rfl
  | unknown => exact Or.inl rfl
  | welcome message => exact Or.inl rfl
  | pong => exact Or.inl rfl
  | errorMsg message => exact Or.inl rfl
  | analysis data gemini coaching =>
    cases data with
    | none => exact Or.inl rfl
    | some d =>
      have hstep : onMessage env ts s
          (WireMsg.analysis (some d) gemini coaching) =
          coachingStage env ts coaching (geminiStage env ts gemini
            (skeletonStage d (coordinateLogStage ts d
              (statsStage d s)))) := rfl
      rw [hstep]
      have hpre : (skeletonStage d (coordinateLogStage ts d
          (statsStage d s))).recentFeedback = s.recentFeedback := by
        rw [skeletonStage_feedback, coordinateLogStage_feedback]
        rfl
      rcases coachingStage_feedback_cases env ts coaching
          (geminiStage env ts gemini (skeletonStage d
            (coordinateLogStage ts d (statsStage d s)))) with hc | ⟨j, hc⟩ <;>
        rcases geminiStage_feedback_cases env ts gemini
          (skeletonStage d (coordinateLogStage ts d (statsStage d s)))
          with hg | ⟨i, hg⟩
      · exact Or.inl (by rw [hc, hg, hpre])
      · exact Or.inr (Or.inl ⟨i, by rw [hc, hg, hpre]⟩)
      · exact Or.inr (Or.inl ⟨j, by rw [hc, hg, hpre]⟩)
      · exact Or.inr (Or.inr ⟨i, j, by rw [hc, hg, hpre]⟩)

/-- Any dispatch leaves the coordinate log untouched or pushes one entry
through the `slice(0, 30)` rolling update. -/
theorem onMessage_logs_cases (env : Env) (ts : String) (s : ClientState)
    (m : WireMsg) :
    (onMessage env ts s m).coordinateLogs = s.coordinateLogs ∨
    ∃ e, (onMessage env ts s m).coordinateLogs =
      (e :: s.coordinateLogs).take 30 := by
  cases m with
  | invalid => exact Or.inl rfl
  | unknown => exact Or.inl rfl
  | welcome message => exact Or.inl rfl
  | pong => exact Or.inl rfl
  | errorMsg message => exact Or.inl rfl
  | analysis data gemini coaching =>
    cases data with
    | none => exact Or.inl rfl
    | some d =>
      have hstep : onMessage env ts s
          (WireMsg.analysis (some d) gemini coaching) =
          coachingStage env ts coaching (geminiStage env ts gemini
            (skeletonStage d (coordinateLogStage ts d
              (statsStage d s)))) := rfl
      rw [hstep, coachingStage_logs, geminiStage_logs, skeletonStage_logs]
      rcases coordinateLogStage_logs_cases ts d (statsStage d s)
        with h | ⟨e, h⟩
      · exact Or.inl (by rw [h]; rfl)
      · exact Or.inr ⟨e, by rw [h]; rfl⟩

theorem take_cons_length_le {α : Type} (n : ℕ) (x : α) (l : List α) :
    ((x :: l).take n).length ≤ n := by
  simp [List.length_take]

theorem onMessage_feedback_le (env : Env) (ts : String) (s : ClientState)
    (m : WireMsg) (h : s.recentFeedback.length ≤ 5) :
    (onMessage env ts s m).recentFeedback.length ≤ 5 := by
  rcases onMessage_feedback_cases env ts s m with hc | ⟨i, hc⟩ | ⟨i, j, hc⟩ <;>
    rw [hc]
  · exact h
  · exact take_cons_length_le 5 i s.recentFeedback
  · exact take_cons_length_le 5 j _

theorem onMessage_logs_le (env : Env) (ts : String) (s : ClientState)
    (m : WireMsg) (h : s.coordinateLogs.length ≤ 30) :
    (onMessage env ts s m).coordinateLogs.length ≤ 30 := by
  rcases onMessage_logs_cases env ts s m with hc | ⟨e, hc⟩ <;> rw [hc]
  · exact h
  · exact take_cons_length_le 30 e s.coordinateLogs

theorem runClient_bounds (env : Env) (msgs : List (String × WireMsg)) :
    ∀ s : ClientState, s.recentFeedback.length ≤ 5 →
      s.coordinateLogs.length ≤ 30 →
      (runClient env s msgs).recentFeedback.length ≤ 5 ∧
      (runClient env s msgs).coordinateLogs.length ≤ 30 := by
  induction msgs with
  | nil => exact fun s h1 h2 => ⟨h1, h2⟩
  | cons m rest ih =>
    intro s h1 h2
    exact ih (onMessage env m.1 s m.2)
      (onMessage_feedback_le env m.1 s m.2 h1)
      (onMessage_logs_le env m.1 s m.2 h2)

/-- Claim C7: the feedback list and the coordinate log are rolling,
most-recent-first buffers — every dispatch either leaves them alone or
pushes the new entry at the head through `slice(0, 5)` / `slice(0, 30)` —
and along any message sequence their lengths stay at most 5 and 30. -/
theorem claim7_rolling_buffers (env : Env) :
    (∀ ts s m,
      ((onMessage env ts s m).recentFeedback = s.recentFeedback ∨
        (∃ i, (onMessage env ts s m).recentFeedback =
          (i :: s.recentFeedback).take 5) ∨
        (∃ i j, (onMessage env ts s m).recentFeedback =
          (j :: (i :: s.recentFeedback).take 5).take 5)) ∧
      ((onMessage env ts s m).coordinateLogs = s.coordinateLogs ∨
        ∃ e, (onMessage env ts s m).coordinateLogs =
          (e :: s.coordinateLogs).take 30)) ∧
    (∀ s msgs, s.recentFeedback.length ≤ 5 → s.coordinateLogs.length ≤ 30 →
      (runClient env s msgs).recentFeedback.length ≤ 5 ∧
      (runClient env s msgs).coordinateLogs.length ≤ 30) :=
  ⟨fun ts s m => ⟨onMessage_feedback_cases env ts s m,
      onMessage_logs_cases env ts s m⟩,
   fun s msgs h1 h2 => runClient_bounds env msgs s h1 h2⟩

/-- Witness for C7: a full feedback list stays at five entries after a
coaching message pushes a sixth. -/
theorem claim7_rolling_buffers_witness :
    ((runClient ⟨true⟩
      { baseState with recentFeedback :=
          [⟨"1", "a", none⟩, ⟨"2", "b", none⟩, ⟨"3", "c", none⟩,
           ⟨"4", "d", none⟩, ⟨"5", "e", none⟩] }
      [("t", WireMsg.analysis
        (some ⟨some 1, none, none, none, none, none⟩) none
        (some ⟨true, some "posture", "straighten up"⟩))]).recentFeedback.length
      ≤ 5) :=
  ((claim7_rolling_buffers ⟨true⟩).2
    { baseState with recentFeedback :=
        [⟨"1", "a", none⟩, ⟨"2", "b", none⟩, ⟨"3", "c", none⟩,
         ⟨"4", "d", none⟩, ⟨"5", "e", none⟩] }
    [("t", WireMsg.analysis
      (some ⟨some 1, none, none, none, none, none⟩) none
      (some ⟨true, some "posture", "straighten up"⟩))]
    (by simp [baseState]) (by simp [baseState])).1

theorem kpAt_mem (kps : List (Option KeyPoint)) (i : ℕ) (p : KeyPoint)
    (h : kpAt kps i = some p) : some p ∈ kps := by
  unfold kpAt at h
  rcases hlt : Nat.decLt i kps.length with _ | hl
  · rw [List.getD_eq_default _ _ (by omega)] at h
    exact absurd h (by simp)
  · rw [List.getD_eq_getElem _ _ hl] at h
    rw [← h]
    exact List.getElem_mem hl

/-- The line-drawing fold of `drawSkeleton` produces exactly one scaled
segment per visible pair, in order. -/
theorem foldr_line_calls (cw ch : ℚ) (kps : List (Option KeyPoint))
    (prs : List (ℕ × ℕ)) :
    prs.foldr (fun pr acc =>
      match kpAt kps pr.1, kpAt kps pr.2 with
      | some ptA, some ptB =>
        if (0.2 : ℚ) < ptA.confidence ∧ (0.2 : ℚ) < ptB.confidence then
          DrawCall.line (ptA.x * (cw / 640)) (ptA.y * (ch / 480))
            (ptB.x * (cw / 640)) (ptB.y * (ch / 480)) :: acc
        else acc
      | _, _ => acc) [] =
    (prs.filter (visiblePair kps)).map (scaledSegment cw ch kps) := by
  induction prs with
  | nil => rfl
  | cons pr rest ih =>
    simp only [List.foldr_cons, List.filter_cons]
    rcases hA : kpAt kps pr.1 with _ | ptA <;>
      rcases hB : kpAt kps pr.2 with _ | ptB
    · simp [visiblePair, hA, hB, ih]
    · simp [visiblePair, hA, hB, ih]
    · simp [visiblePair, hA, hB, ih]
    · by_cases hcond :
          (0.2 : ℚ) < ptA.confidence ∧ (0.2 : ℚ) < ptB.confidence
      · simp [visiblePair, hA, hB, ih, hcond, scaledSegment]
      · simp [visiblePair, hA, hB, ih, hcond]

/-- The circle-drawing fold of `drawSkeleton` produces exactly the
colour-graded circles of the keypoints above the confidence floor. -/
theorem foldr_circle_calls (cw ch : ℚ) (l : List (Option KeyPoint)) :
    l.foldr (fun o acc =>
      match o with
      | some pt =>
        if (0.2 : ℚ) < pt.confidence then
          DrawCall.circle (pt.x * (cw / 640)) (pt.y * (ch / 480))
            (gradeColor pt.confidence) :: acc
        else acc
      | none => acc) [] = specCircles cw ch l := by
  induction l with
  | nil => rfl
  | cons o rest ih =>
    rcases o with _ | pt
    · simpa [specCircles] using ih
    · by_cases hc : (0.2 : ℚ) < pt.confidence
      · simp only [List.foldr_cons, hc, if_true, ih]
        simp [specCircles, hc]
      · simp only [List.foldr_cons, hc, if_false, ih]
        simp [specCircles, hc]

/-- On a nonempty keypoint list, the canvas receives the visible-edge
segments followed by the visible keypoints' circles. -/
theorem drawSkeleton_calls (cw ch : ℚ) (kps : List (Option KeyPoint))
    (h : kps ≠ []) :
    (drawSkeleton cw ch kps).calls =
      (POSE_PAIRS.filter (visiblePair kps)).map (scaledSegment cw ch kps) ++
      specCircles cw ch kps := by
  unfold drawSkeleton
  rw [if_neg (by simpa using h)]
  dsimp only
  rw [foldr_line_calls, foldr_circle_calls]

theorem filter_isLine_segs (cw ch : ℚ) (kps : List (Option KeyPoint))
    (prs : List (ℕ × ℕ)) :
    (prs.map (scaledSegment cw ch kps)).filter DrawCall.isLine =
      prs.map (scaledSegment cw ch kps) := by
  apply List.filter_eq_self.mpr
  intro c hc
  rcases List.mem_map.mp hc with ⟨pr, _, hpr⟩
  rw [← hpr]
  rfl

theorem filter_isCircle_segs (cw ch : ℚ) (kps : List (Option KeyPoint))
    (prs : List (ℕ × ℕ)) :
    (prs.map (scaledSegment cw ch kps)).filter DrawCall.isCircle = [] := by
  apply List.filter_eq_nil_iff.mpr
  intro c hc
  rcases List.mem_map.mp hc with ⟨pr, _, hpr⟩
  rw [← hpr]
  simp [scaledSegment, DrawCall.isCircle]

theorem filter_isCircle_circles (cw ch : ℚ) (l : List (Option KeyPoint)) :
    (specCircles cw ch l).filter DrawCall.isCircle = specCircles cw ch l := by
  apply List.filter_eq_self.mpr
  intro c hc
  rcases List.mem_map.mp hc with ⟨pt, _, hpt⟩
  rw [← hpt]
  rfl

theorem filter_isLine_circles (cw ch : ℚ) (l : List (Option KeyPoint)) :
    (specCircles cw ch l).filter DrawCall.isLine = [] := by
  apply List.filter_eq_nil_iff.mpr
  intro c hc
  rcases List.mem_map.mp hc with ⟨pt, _, hpt⟩
  rw [← hpt]
  simp [DrawCall.isLine]

theorem visiblePair_of_low (kps : List (Option KeyPoint))
    (hconf : ∀ o ∈ kps, ∀ p : KeyPoint, o = some p → p.confidence < 0.2)
    (pr : ℕ × ℕ) : visiblePair kps pr = false := by
  unfold visiblePair
  rcases hA : kpAt kps pr.1 with _ | ptA <;>
    rcases hB : kpAt kps pr.2 with _ | ptB <;> try rfl
  have hlt := hconf (some ptA) (kpAt_mem kps pr.1 ptA hA) ptA rfl
  simp only [decide_eq_false_iff_not]
  intro hand
  exact absurd hand.1 (by linarith)

theorem specCircles_of_low (cw ch : ℚ) (kps : List (Option KeyPoint))
    (hconf : ∀ o ∈ kps, ∀ p : KeyPoint, o = some p → p.confidence < 0.2) :
    specCircles cw ch kps = [] := by
  unfold specCircles
  rw [List.filterMap_eq_nil_iff.mpr, List.map_nil]
  intro o ho
  rcases o with _ | pt
  · rfl
  · have hlt := hconf (some pt) ho pt rfl
    show (if (0.2 : ℚ) < pt.confidence then some pt else none) = none
    rw [if_neg (by linarith)]

/-- Claim C4: the skeleton renderer draws nothing when every present
keypoint has confidence below 0.2; an edge segment appears exactly for the
declared pose pairs whose two endpoints exist with confidence above 0.2
(one stroked segment per such pair, in declaration order); the drawn
circles are exactly the keypoints above 0.2, colour-graded by the
three-band rule; and a fully present, fully confident 18-keypoint list
yields exactly one segment per declared pair — 17 in total. -/
theorem claim4_skeleton_renderer (cw ch : ℚ)
    (kps : List (Option KeyPoint)) :
    ((∀ o ∈ kps, ∀ p : KeyPoint, o = some p → p.confidence < 0.2) →
      (drawSkeleton cw ch kps).calls = []) ∧
    ((drawSkeleton cw ch kps).calls.filter DrawCall.isLine =
      (POSE_PAIRS.filter (visiblePair kps)).map (scaledSegment cw ch kps)) ∧
    ((drawSkeleton cw ch kps).calls.filter DrawCall.isCircle =
      specCircles cw ch kps) ∧
    (kps.length = 18 →
      (∀ o ∈ kps, ∃ p : KeyPoint, o = some p ∧ p.confidence = 1) →
      (drawSkeleton cw ch kps).calls.filter DrawCall.isLine =
        POSE_PAIRS.map (scaledSegment cw ch kps) ∧
      ((drawSkeleton cw ch kps).calls.filter DrawCall.isLine).length = 17) := by
  rcases hkps : kps with _ | ⟨o, rest⟩
  · refine ⟨fun _ => rfl, ?_, ?_, ?_⟩
    · have hnil : POSE_PAIRS.filter (visiblePair []) = [] :=
        List.filter_eq_nil_iff.mpr (fun pr _ => by
          rw [visiblePair_of_low [] (by intro o ho p hp; simp at ho) pr]
          simp)
      rw [hnil]
      rfl
    · rfl
    · intro h18
      exact absurd h18 (by simp)
  · rw [← hkps]
    have hne : kps ≠ [] := by rw [hkps]; exact List.cons_ne_nil o rest
    have hcalls := drawSkeleton_calls cw ch kps hne
    have hline : (drawSkeleton cw ch kps).calls.filter DrawCall.isLine =
        (POSE_PAIRS.filter (visiblePair kps)).map
          (scaledSegment cw ch kps) := by
      rw [hcalls, List.filter_append, filter_isLine_segs,
        filter_isLine_circles, List.append_nil]
    have hcircle : (drawSkeleton cw ch kps).calls.filter DrawCall.isCircle =
        specCircles cw ch kps := by
      rw [hcalls, List.filter_append, filter_isCircle_segs,
        filter_isCircle_circles, List.nil_append]
    refine ⟨?_, hline, hcircle, ?_⟩
    · intro hconf
      rw [hcalls, specCircles_of_low cw ch kps hconf, List.append_nil]
      rw [List.filter_eq_nil_iff.mpr
        (fun pr hpr => by rw [visiblePair_of_low kps hconf pr]; simp),
        List.map_nil]
    · intro h18 hfull
      have hall : POSE_PAIRS.filter (visiblePair kps) = POSE_PAIRS := by
        apply List.filter_eq_self.mpr
        intro pr hpr
        have hidx : pr.1 < 18 ∧ pr.2 < 18 :=
          (by decide : ∀ q ∈ POSE_PAIRS, q.1 < 18 ∧ q.2 < 18) pr hpr
        have hp1 : pr.1 < kps.length := by omega
        have hp2 : pr.2 < kps.length := by omega
        have h1 : kpAt kps pr.1 = kps[pr.1] := by
          unfold kpAt
          exact List.getD_eq_getElem kps none hp1
        have h2 : kpAt kps pr.2 = kps[pr.2] := by
          unfold kpAt
          exact List.getD_eq_getElem kps none hp2
        rcases hfull (kps[pr.1]) (List.getElem_mem hp1) with ⟨pA, hpA, hcA⟩
        rcases hfull (kps[pr.2]) (List.getElem_mem hp2) with ⟨pB, hpB, hcB⟩
        unfold visiblePair
        rw [h1, h2, hpA, hpB]
        simp only [decide_eq_true_eq]
        constructor <;> [rw [hcA]; rw [hcB]] <;> norm_num
      refine ⟨by rw [hline, hall], ?_⟩
      rw [hline, hall, List.length_map]
      rfl

/-- Witness for C4: a single low-confidence keypoint draws nothing; the
full-confidence 18-keypoint list draws all 17 edges. -/
theorem claim4_skeleton_renderer_witness :
    (drawSkeleton 640 480 [some ⟨1, 2, 1 / 10⟩]).calls = [] ∧
    ((drawSkeleton 640 480
      (List.replicate 18 (some ⟨5, 6, 1⟩))).calls.filter
        DrawCall.isLine).length = 17 :=
  ⟨(claim4_skeleton_renderer 640 480 [some ⟨1, 2, 1 / 10⟩]).1
    (by
      intro o ho p hp
      rw [List.mem_singleton] at ho
      subst ho
      injection hp with h
      rw [← h]
      norm_num),
   ((claim4_skeleton_renderer 640 480
      (List.replicate 18 (some ⟨5, 6, 1⟩))).2.2.2
    (by rfl)
    (by
      intro o ho
      rw [List.eq_of_mem_replicate ho]
      exact ⟨⟨5, 6, 1⟩, rfl, rfl⟩)).2⟩

theorem runVad_append (cfg : VadConfig) (s : VadState)
    (l1 l2 : List VadEvent) :
    runVad cfg s (l1 ++ l2) =
      ((runVad cfg (runVad cfg s l1).1 l2).1,
       (runVad cfg s l1).2 ++ (runVad cfg (runVad cfg s l1).1 l2).2) := by
  induction l1 generalizing s with
  | nil => simp [runVad]
  | cons e rest ih =>
    simp only [List.cons_append, runVad, List.append_eq]
    rw [ih]
    simp [List.append_assoc]

theorem tickSubThreshold_append_fire (cfg : VadConfig) (es : List VadEvent)
    (t0 te : ℕ) (h : tickSubThreshold cfg es t0) :
    tickSubThreshold cfg (es ++ [VadEvent.fire te]) t0 := by
  intro t bins hmem hge
  rcases List.mem_append.mp hmem with hm | hm
  · exact h t bins hm hge
  · rw [List.mem_singleton] at hm
    exact absurd hm (by simp)

theorem tickSubThreshold_append_tick (cfg : VadConfig) (es : List VadEvent)
    (t0 te : ℕ) (bins : List ℕ) (h : tickSubThreshold cfg es t0)
    (hte : normalizedEnergy bins ≤ cfg.speechThreshold) :
    tickSubThreshold cfg (es ++ [VadEvent.tick te bins]) t0 := by
  intro t b hmem hge
  rcases List.mem_append.mp hmem with hm | hm
  · exact h t b hm hge
  · rw [List.mem_singleton] at hm
    injection hm with h1 h2
    subst h1
    subst h2
    exact hte

/-- One step preserves the run invariant when the new event is later than
every processed event. -/
theorem stepVad_inv (cfg : VadConfig) (es : List VadEvent) (s : VadState)
    (e : VadEvent) (hinv : vadStateInv cfg es s)
    (hlt : ∀ x ∈ es, eventTime x < eventTime e) :
    vadStateInv cfg (es ++ [e]) (stepVad cfg s e).1 := by
  cases e with
  | tick te bins =>
    by_cases hth : cfg.speechThreshold < normalizedEnergy bins
    · by_cases hsp : s.isSpeaking = true
      · -- speaking and loud: the silence timer is cleared
        have hstep : (stepVad cfg s (VadEvent.tick te bins)).1 =
            { s with energy := normalizedEnergy bins,
                     silenceTimer := none } := by
          simp [stepVad, hth, hsp]
        rw [hstep]
        refine ⟨fun _ => ?_, fun t0 h => ?_⟩
        · rcases hinv.1 hsp with ⟨st, bins', hst, hmem⟩
          exact ⟨st, bins', hst, List.mem_append_left _ hmem⟩
        · exact absurd h (by simp)
      · -- silent so far and loud: speech starts now
        have hstep : (stepVad cfg s (VadEvent.tick te bins)).1 =
            { s with isSpeaking := true, energy := normalizedEnergy bins,
                     speechStartTime := some te, silenceTimer := none } := by
          simp [stepVad, hth, hsp]
        rw [hstep]
        refine ⟨fun _ => ?_, fun t0 h => ?_⟩
        · exact ⟨te, bins, rfl,
            List.mem_append_right _ (List.mem_singleton.mpr rfl)⟩
        · exact absurd h (by simp)
    · by_cases harm : s.isSpeaking && s.silenceTimer.isNone
      · -- speaking with no pending timer: arm at te
        have hstep : (stepVad cfg s (VadEvent.tick te bins)).1 =
            { s with energy := normalizedEnergy bins,
                     silenceTimer := some te } := by
          simp [stepVad, hth, harm]
        rw [hstep]
        have hsp : s.isSpeaking = true := (Bool.and_eq_true_iff.mp harm).1
        rcases hinv.1 hsp with ⟨st, bins', hst, hmem⟩
        refine ⟨fun _ => ⟨st, bins', hst, List.mem_append_left _ hmem⟩,
          fun t0 h => ?_⟩
        simp only at h
        injection h with h0
        subst h0
        have hstlt : st < te := by
          have := hlt (VadEvent.tick st bins') hmem
          simpa [eventTime] using this
        refine ⟨hsp, ⟨st, hst, le_of_lt hstlt⟩, ?_⟩
        intro t b htk hge
        rcases List.mem_append.mp htk with hm | hm
        · have := hlt (VadEvent.tick t b) hm
          simp only [eventTime] at this
          omega
        · rw [List.mem_singleton] at hm
          injection hm with h1 h2
          subst h1
          subst h2
          exact le_of_not_lt hth
      · -- quiet and no arming: state unchanged but for the energy
        have hstep : (stepVad cfg s (VadEvent.tick te bins)).1 =
            { s with energy := normalizedEnergy bins } := by
          simp [stepVad, hth, harm]
        rw [hstep]
        refine ⟨fun hspk => ?_, fun t0 h => ?_⟩
        · rcases hinv.1 (by simpa using hspk) with ⟨st, bins', hst, hmem⟩
          exact ⟨st, bins', hst, List.mem_append_left _ hmem⟩
        · simp only at h
          rcases hinv.2 t0 h with ⟨hspk, ⟨st, hst, hstle⟩, hsub⟩
          exact ⟨hspk, ⟨st, hst, hstle⟩,
            tickSubThreshold_append_tick cfg es t0 te bins hsub
              (le_of_not_lt hth)⟩
  | fire te =>
    rcases htimer : s.silenceTimer with _ | t0
    · have hstep : (stepVad cfg s (VadEvent.fire te)).1 = s := by
        simp [stepVad, htimer]
      rw [hstep]
      refine ⟨fun hspk => ?_, fun t1 h => ?_⟩
      · rcases hinv.1 hspk with ⟨st, bins', hst, hmem⟩
        exact ⟨st, bins', hst, List.mem_append_left _ hmem⟩
      · rw [htimer] at h
        exact absurd h (by simp)
    · by_cases hdue : te = t0 + cfg.silenceDuration
      · have hstep : (stepVad cfg s (VadEvent.fire te)).1 =
            { s with isSpeaking := false, silenceTimer := none,
                     speechStartTime := none } := by
          simp [stepVad, htimer, hdue]
        rw [hstep]
        refine ⟨fun hspk => ?_, fun t1 h => ?_⟩
        · exact absurd hspk (by simp)
        · exact absurd h (by simp)
      · have hstep : (stepVad cfg s (VadEvent.fire te)).1 = s := by
          simp [stepVad, htimer, hdue]
        rw [hstep]
        refine ⟨fun hspk => ?_, fun t1 h => ?_⟩
        · rcases hinv.1 hspk with ⟨st, bins', hst, hmem⟩
          exact ⟨st, bins', hst, List.mem_append_left _ hmem⟩
        · rcases hinv.2 t1 h with ⟨hspk, ⟨st, hst, hstle⟩, hsub⟩
          exact ⟨hspk, ⟨st, hst, hstle⟩,
            tickSubThreshold_append_fire cfg es t1 te hsub⟩

/-- The run invariant holds after processing any wellformed trace. -/
theorem runVad_inv (cfg : VadConfig) (es : List VadEvent) (hwf : vadWf es) :
    vadStateInv cfg es (runVad cfg initialVadState es).1 := by
  induction es using List.reverseRecOn with
  | nil =>
    exact ⟨fun h => by simp [runVad, initialVadState] at h,
      fun t0 h => by simp [runVad, initialVadState] at h⟩
  | append_singleton es e ih =>
    obtain ⟨hwf1, _, hcross⟩ := List.pairwise_append.mp hwf
    have hstate : (runVad cfg initialVadState (es ++ [e])).1 =
        (stepVad cfg (runVad cfg initialVadState es).1 e).1 := by
      rw [runVad_append]
      simp [runVad]
    rw [hstate]
    exact stepVad_inv cfg es (runVad cfg initialVadState es).1 e (ih hwf1)
      (fun x hx => hcross x hx e (List.mem_singleton.mpr rfl))

/-- Every speech-end callback of a wellformed run fires exactly
`silenceDuration` after some arm time `t0`, reports the elapsed time since
the recorded speech start, coincides with a trace event, and every tick of
the trace inside the silence window measured energy at or below the
threshold. -/
theorem runVad_speechEnd (cfg : VadConfig) (es : List VadEvent)
    (hwf : vadWf es) :
    ∀ now d, (now, VadCallback.speechEnd d) ∈
        (runVad cfg initialVadState es).2 →
      ∃ t0 st, now = t0 + cfg.silenceDuration ∧ st ≤ t0 ∧ d = now - st ∧
        (∃ x ∈ es, eventTime x = now) ∧
        ∀ t bins, VadEvent.tick t bins ∈ es → t0 ≤ t → t < now →
          normalizedEnergy bins ≤ cfg.speechThreshold := by
  induction es using List.reverseRecOn with
  | nil =>
    intro now d h
    simp [runVad] at h
  | append_singleton es e ih =>
    obtain ⟨hwf1, _, hcross⟩ := List.pairwise_append.mp hwf
    intro now d hmem
    rw [runVad_append] at hmem
    have houts : (runVad cfg (runVad cfg initialVadState es).1 [e]).2 =
        (stepVad cfg (runVad cfg initialVadState es).1 e).2 := by
      simp [runVad]
    rw [houts] at hmem
    rcases List.mem_append.mp hmem with hm | hm
    · -- callback emitted during the prefix
      rcases ih hwf1 now d hm with ⟨t0, st, h1, h2, h3, ⟨x, hx, hxt⟩, hwin⟩
      refine ⟨t0, st, h1, h2, h3,
        ⟨x, List.mem_append_left _ hx, hxt⟩, ?_⟩
      intro t bins htk hge hltn
      rcases List.mem_append.mp htk with hm2 | hm2
      · exact hwin t bins hm2 hge hltn
      · rw [List.mem_singleton] at hm2
        have hnow : now < eventTime e := by
          rw [← hxt]
          exact hcross x hx e (List.mem_singleton.mpr rfl)
        rw [← hm2] at hnow
        simp only [eventTime] at hnow
        omega
    · -- callback emitted by the appended event: it must be a legal fire
      cases e with
      | tick te bins =>
        exfalso
        by_cases hth : cfg.speechThreshold <
            normalizedEnergy bins
        · by_cases hsp : (runVad cfg initialVadState es).1.isSpeaking = true
          · simp [stepVad, hth, hsp] at hm
          · simp [stepVad, hth, hsp] at hm
        · by_cases harm : (runVad cfg initialVadState es).1.isSpeaking &&
              (runVad cfg initialVadState es).1.silenceTimer.isNone
          · simp [stepVad, hth, harm] at hm
          · simp [stepVad, hth, harm] at hm
      | fire te =>
        rcases htimer : (runVad cfg initialVadState es).1.silenceTimer
          with _ | t0
        · simp [stepVad, htimer] at hm
        · by_cases hdue : te = t0 + cfg.silenceDuration
          · rcases (runVad_inv cfg es hwf1).2 t0 htimer with
              ⟨hspk, ⟨st, hst, hstle⟩, hsub⟩
            have hm2 := hm
            simp only [stepVad, htimer, hst, if_pos hdue] at hm2
            rw [List.mem_singleton] at hm2
            injection hm2 with hnow hcb
            injection hcb with hd
            refine ⟨t0, st, by omega, hstle, by omega,
              ⟨VadEvent.fire te,
                List.mem_append_right _ (List.mem_singleton.mpr rfl),
                by simp [eventTime, hnow]⟩, ?_⟩
            intro t bins htk hge hltn
            rcases List.mem_append.mp htk with hm3 | hm3
            · exact hsub t bins hm3 hge
            · rw [List.mem_singleton] at hm3
              exact absurd hm3 (by simp)
          · simp [stepVad, htimer, hdue] at hm

/-- Claim C3: in any wellformed run of `analyzeAudio`, a speech-end
callback at time `now` with duration `d` means a silence timer was armed
at some `t0 = now - silenceDuration`, speech had started at some recorded
`st ≤ t0` with `d = now - st`, and every analysis tick from `t0` up to the
firing measured normalized energy at or below `speechThreshold`; moreover
any tick with energy above the threshold clears a pending silence timer,
so a cancelled window never produces a speech-end callback. -/
theorem claim3_vad_debounce (cfg : VadConfig) :
    (∀ es now d, vadWf es →
      (now, VadCallback.speechEnd d) ∈
        (runVad cfg initialVadState es).2 →
      ∃ t0 st, now = t0 + cfg.silenceDuration ∧ st ≤ t0 ∧ d = now - st ∧
        ∀ t bins, VadEvent.tick t bins ∈ es → t0 ≤ t → t < now →
          normalizedEnergy bins ≤ cfg.speechThreshold) ∧
    (∀ s t bins, cfg.speechThreshold < normalizedEnergy bins →
      (stepVad cfg s (VadEvent.tick t bins)).1.silenceTimer = none) := by
  constructor
  · intro es now d hwf hmem
    rcases runVad_speechEnd cfg es hwf now d hmem with
      ⟨t0, st, h1, h2, h3, _, hwin⟩
    exact ⟨t0, st, h1, h2, h3, hwin⟩
  · intro s t bins hth
    by_cases hsp : s.isSpeaking = true <;> simp [stepVad, hth, hsp]

/-- Witness for C3: a loud tick at 1 starts speech, a quiet tick at 10
arms the timer, the fire at 2510 ends speech with duration 2509. -/
theorem claim3_vad_debounce_witness :
    vadWf [VadEvent.tick 1 [255], VadEvent.tick 10 [0],
      VadEvent.fire 2510] ∧
    ((2510, VadCallback.speechEnd 2509) ∈
      (runVad ⟨1 / 50, 2500⟩ initialVadState
        [VadEvent.tick 1 [255], VadEvent.tick 10 [0],
         VadEvent.fire 2510]).2) ∧
    (∃ t0 st, 2510 = t0 + (2500 : ℕ) ∧ st ≤ t0 ∧ 2509 = 2510 - st ∧
      ∀ t bins, VadEvent.tick t bins ∈
          [VadEvent.tick 1 [255], VadEvent.tick 10 [0],
           VadEvent.fire 2510] → t0 ≤ t → t < 2510 →
        normalizedEnergy bins ≤ 1 / 50) :=
  ⟨by decide,
   by norm_num [runVad, stepVad, normalizedEnergy, initialVadState],
   (claim3_vad_debounce ⟨1 / 50, 2500⟩).1
     [VadEvent.tick 1 [255], VadEvent.tick 10 [0], VadEvent.fire 2510]
     2510 2509 (by decide)
     (by norm_num [runVad, stepVad, normalizedEnergy, initialVadState])⟩

end VideoCoach
